import Mathlib

/-!
Verification of the meta-gen core (generator / tracker / learner / prompt state)
against its natural-language specification.

The JavaScript sources are shallowly embedded: JS numbers used for click rates
become `ℚ` (every comparison made by the code is at exactly representable
decimal literals, where IEEE doubles and exact rationals agree on every branch
the spec exercises), fallible calls become `Except`/`Option`, the LLM and the
metrics backend become oracle parameters, and telemetry emission (the
`outcome`/`call` audit events of the warp client) is either dropped or recorded
in an explicit event list when a claim mentions it.
-/

/-! ## Shared data model (generator.js, validators.js) -/

/-- GeneratedText: the LLM's structured `{title, description}` output. -/
structure Generated where
  title : String
  description : String
deriving DecidableEq, Repr

/-- One chat message `{role, content}` of an outgoing LLM request. -/
structure Message where
  role : String
  content : String
deriving DecidableEq, Repr

/-- One entry of a candidate's FailureHistory.  Entries pushed by the retry
loop (generator.js line 133) always carry the generated text; the single entry
written by the transport-error catch (generator.js line 54) has none. -/
structure HistEntry where
  attempt : ℕ
  reason : String
  generated : Option Generated
deriving DecidableEq, Repr

/-- ValidationResult `{pass, reason?, meta?}`.  `meta` is an association list;
the source merges metas with `Object.assign` (later keys override), modelled
below by prepending so that first lookup wins. -/
structure ValidationResult where
  pass : Bool
  reason : Option String
  meta : List (String × String)
deriving DecidableEq, Repr

/-- A validator, as consumed by the chain.  The source passes `(generated,
page, ctx)`; `page` and `ctx` are only used for telemetry inside the concrete
validators, so the chain is modelled on the generated text alone. -/
abbrev Validator := Generated → ValidationResult

/-- JS falsiness of a nullable string: `null`/`undefined` and `""` are falsy. -/
def jsFalsyStr : Option String → Bool
  | none => true
  | some s => s == ""

/-- The validator loop of `generateWithRetry` (generator.js lines 108-120):
runs validators in order; the first failing one stops the loop and its
`reason` is kept, metas of the validators that passed before it are merged.
Returns `(failed, mergedMeta)` with `failed = none` when every validator
passed and `failed = some r` when one failed with reason field `r`. -/
def chainLoop (g : Generated) : List Validator → List (String × String) →
    Option (Option String) × List (String × String)
  | [], meta => (none, meta)
  | v :: vs, meta =>
    let r := v g
    if r.pass then chainLoop g vs (r.meta ++ meta)
    else (some r.reason, meta)

/-- The `if (!failed)` test of generator.js line 122, folded into one value:
`some r` exactly when a validator failed with a truthy (non-empty) reason `r`,
`none` when the chain passed — or when the failing validator supplied no
reason or an empty one, which the source's falsiness test treats as a pass. -/
def chainFailedReason (validators : List Validator) (g : Generated) : Option String :=
  match Option.join (chainLoop g validators []).1 with
  | none => none
  | some s => if s == "" then none else some s

/-- One line of the rejection block (generator.js lines 73-75).  A missing
generated text would render as JS `undefined`; loop entries always have one. -/
def rejectionLine (f : HistEntry) : String :=
  "Attempt " ++ toString f.attempt ++ ": \"" ++
    (match f.generated with
     | some g => g.description
     | none => "undefined") ++ "\" — REJECTED: " ++ f.reason

/-- JS `Array.prototype.join('\n')`. -/
def joinNl : List String → String
  | [] => ""
  | [s] => s
  | s :: t :: rest => s ++ "\n" ++ joinNl (t :: rest)

/-- The extra user message pushed on retries (generator.js lines 76-79). -/
def rejectionBlock (history : List HistEntry) : String :=
  "Previous attempts were all rejected. Do NOT make minor tweaks — write something fundamentally different.\n\n"
    ++ joinNl (history.map rejectionLine)

/-- The message list of one attempt's request (generator.js lines 67-80):
system prompt, user prompt, and — only when prior rejected attempts exist —
the rejection block. -/
def attemptMessages (sys usr : String) (history : List HistEntry) : List Message :=
  [⟨"system", sys⟩, ⟨"user", usr⟩] ++
    (if history.length > 0 then [⟨"user", rejectionBlock history⟩] else [])

/-- Terminal state of one candidate's retry loop: the accepted generated text,
or the exhaustion record `{attempts: maxRetries, lastReason, history}`. -/
inductive RetryResult where
  | success (g : Generated)
  | failure (attempts : ℕ) (lastReason : Option String) (history : List HistEntry)
deriving DecidableEq, Repr

/-- The retry state machine of `generateWithRetry` (generator.js lines 62-152),
unrolled on explicit fuel: `fuel` is the number of attempts still allowed and
`attempt` the 1-based index of the next one, so the top-level entry point runs
it with `attempt = 1, fuel = maxRetries`.  The LLM is the oracle
`llm : attempt ↦ Except transportError generated`; a transport error aborts
the whole candidate (the JS exception propagating out of the loop).  The first
component collects the message list of every request actually sent. -/
def retryGo (llm : ℕ → Except String Generated) (validators : List Validator)
    (sys usr : String) (maxRetries : ℕ) :
    ℕ → ℕ → List HistEntry → Option String →
    List (List Message) × Except String RetryResult
  | _, 0, history, lastReason =>
    ([], .ok (.failure maxRetries lastReason history))
  | attempt, fuel + 1, history, _lastReason =>
    let msgs := attemptMessages sys usr history
    match llm attempt with
    | .error e => ([msgs], .error e)
    | .ok g =>
      match chainFailedReason validators g with
      | none => ([msgs], .ok (.success g))
      | some reason =>
        let rest := retryGo llm validators sys usr maxRetries (attempt + 1) fuel
          (history ++ [⟨attempt, reason, some g⟩]) (some reason)
        (msgs :: rest.1, rest.2)

/-- `generateWithRetry` for one candidate: attempts 1..maxRetries. -/
def generateWithRetry (llm : ℕ → Except String Generated) (validators : List Validator)
    (sys usr : String) (maxRetries : ℕ) :
    List (List Message) × Except String RetryResult :=
  retryGo llm validators sys usr maxRetries 1 maxRetries [] none

/-- A candidate page as handed to `generate`. -/
structure Page where
  url : String
  ctr : ℚ
  impressions : ℕ
deriving DecidableEq, Repr

/-- A batch success record (generator.js lines 36-43; `generatedAt` dropped). -/
structure SuccessRecord where
  url : String
  title : String
  description : String
  currentCTR : ℚ
  impressions : ℕ
deriving DecidableEq, Repr

/-- A batch failure record (`{failed: true, url, attempts, lastReason, history}`). -/
structure FailRecord where
  url : String
  attempts : ℕ
  lastReason : Option String
  history : List HistEntry
deriving DecidableEq, Repr

/-- JS `options.maxRetries || 3`: `undefined` and `0` are falsy. -/
def jsOrNum (o : Option ℕ) (d : ℕ) : ℕ :=
  match o with
  | none => d
  | some 0 => d
  | some n => n

/-- The per-page body of `generate`'s loop (generator.js lines 18-57): run the
retry machine; a success is mapped into the results list, an exhaustion
failure is pushed to the failures list, and a thrown transport error is caught
and pushed as `{attempts: 0, lastReason: err, history: [{attempt: 0, reason: err}]}`. -/
def genStep (llmFor : Page → ℕ → Except String Generated) (validators : List Validator)
    (sys : String) (usrOf : Page → String) (maxRetries : ℕ)
    (acc : List SuccessRecord × List FailRecord) (page : Page) :
    List SuccessRecord × List FailRecord :=
  match (generateWithRetry (llmFor page) validators sys (usrOf page) maxRetries).2 with
  | .error e => (acc.1, acc.2 ++ [⟨page.url, 0, some e, [⟨0, e, none⟩]⟩])
  | .ok (.success g) =>
    (acc.1 ++ [⟨page.url, g.title, g.description, page.ctr, page.impressions⟩], acc.2)
  | .ok (.failure attempts lastReason history) =>
    (acc.1, acc.2 ++ [⟨page.url, attempts, lastReason, history⟩])

/-- `generate` (generator.js lines 6-60) over a batch of pages.  `usrOf` stands
for `buildUserPrompt`, whose string composition no claim inspects; both result
lists are returned together at the end. -/
def generate (llmFor : Page → ℕ → Except String Generated) (validators : List Validator)
    (sys : String) (usrOf : Page → String) (maxRetriesOpt : Option ℕ)
    (pages : List Page) : List SuccessRecord × List FailRecord :=
  pages.foldl (genStep llmFor validators sys usrOf (jsOrNum maxRetriesOpt 3)) ([], [])

/-! ## Validators (validators.js) -/

/-- `lengthValidator` (validators.js lines 4-16); the source's default bounds
are `min = 140, max = 160`.  The `Length Passed`/`Length Failed` audit events
are telemetry and not modelled. -/
def lengthValidator (min max : ℕ) : Validator := fun g =>
  let len := g.description.length
  if len < min ∨ len > max then
    { pass := false,
      reason := some ("Description is " ++ toString len ++ " chars, must be "
        ++ toString min ++ "-" ++ toString max),
      meta := [] }
  else
    { pass := true, reason := none, meta := [] }

/-- `lengthValidator()` called with its defaults. -/
def lengthValidatorDefault : Validator := lengthValidator 140 160

/-! ## Tracker (tracker.js) -/

/-- A metrics fetch result `{ctr, impressions}` for one page. -/
structure Perf where
  ctr : ℚ
  impressions : ℕ
deriving DecidableEq, Repr

/-- A Tracker outcome category. -/
inductive OutcomeCategory where
  | highCTR
  | improved
  | noImprovement
  | insufficientData
deriving DecidableEq, Repr

/-- The classification branch of `trackPerformance` (tracker.js lines 108-143):
strict thresholds on the relative improvement. -/
def classifyImprovement (improvement : ℚ) : OutcomeCategory :=
  if improvement > 0.2 then .highCTR
  else if improvement > 0 then .improved
  else .noImprovement

/-- One generated page as seen by the tracker loop, with its baseline click
rate and the metrics-fetch result (`none` when GSC returned no data). -/
structure GeneratedPage where
  url : String
  baselineCTR : ℚ
  perf : Option Perf
deriving DecidableEq, Repr

/-- The body of the tracker's per-page loop (tracker.js lines 65-146) acting on
the `(tracked, highPerformers)` counters: no data or fewer than 10 impressions
records `Insufficient Data` and skips the counters; otherwise the page is
classified and counted, with `highPerformers` bumped only on `High CTR`. -/
def trackStep (acc : ℕ × ℕ) (page : GeneratedPage) : ℕ × ℕ :=
  match page.perf with
  | none => acc
  | some perf =>
    if perf.impressions < 10 then acc
    else
      let improvement := (perf.ctr - page.baselineCTR) / page.baselineCTR
      match classifyImprovement improvement with
      | .highCTR => (acc.1 + 1, acc.2 + 1)
      | _ => (acc.1 + 1, acc.2)

/-- A tracked record of the rewritten tracker: the batch-output entry for one
page (age in days since generation, `failed` marker, optional baseline click
rate) together with the metrics-fetch result for that page. -/
structure TrackedRecord where
  failed : Bool
  ageDays : ℕ
  baseline : Option ℚ
  perf : Option Perf
deriving DecidableEq, Repr

/-- Modelled from the spec: the absolute-click-rate classification used when no
baseline exists (spec §4.3 step 4) by the rewritten functional
`trackPerformance`, whose implementation is absent from this snapshot — only
its unit tests and its CLI caller are present: `≥ 0.05` High CTR, `≥ 0.03`
Improved, else No Improvement. -/
def classifyAbsolute (ctr : ℚ) : OutcomeCategory :=
  if ctr ≥ 0.05 then .highCTR
  else if ctr ≥ 0.03 then .improved
  else .noImprovement

/-- Modelled from the spec: per-record outcome of the rewritten functional
`trackPerformance` (spec §4.3; implementation absent from this snapshot, only
its unit tests and CLI caller are present).  Failed or too-young records are
skipped entirely (`none`); no metrics or fewer than 10 impressions is
`Insufficient Data`; with a baseline the relative-improvement classification
applies, without one the absolute classification. -/
def trackRecordOutcome (minDays : ℕ) (r : TrackedRecord) : Option OutcomeCategory :=
  if r.failed then none
  else if r.ageDays < minDays then none
  else
    match r.perf with
    | none => some .insufficientData
    | some p =>
      if p.impressions < 10 then some .insufficientData
      else
        match r.baseline with
        | some b => some (classifyImprovement ((p.ctr - b) / b))
        | none => some (classifyAbsolute p.ctr)

/-- Modelled from the spec: the `(tracked, highPerformers)` return value of the
rewritten functional `trackPerformance` — `tracked` counts every classified
record except `Insufficient Data`, `highPerformers` counts `High CTR`. -/
def trackPerformance (minDays : ℕ) (recs : List TrackedRecord) : ℕ × ℕ :=
  recs.foldl (fun acc r =>
    match trackRecordOutcome minDays r with
    | some .highCTR => (acc.1 + 1, acc.2 + 1)
    | some .improved => (acc.1 + 1, acc.2)
    | some .noImprovement => (acc.1 + 1, acc.2)
    | _ => acc) (0, 0)

/-! ## PromptState (prompt-manager.js) -/

/-- A learned pattern as persisted in `patterns.json`.  `impact` and
`confidence` are numeric/string JSON values in the source; they are carried
here as their rendered text, which is all `getSystemPrompt` uses. -/
structure Pattern where
  description : String
  «example» : String
  impact : String
  confidence : String
  sampleSize : ℕ
  addedAt : String
deriving DecidableEq, Repr

/-- The layered prompt state: the three prompt files plus the dated
`quality-YYYY-MM-DD.md` backup files, as a path-indexed store. -/
structure PromptState where
  base : String
  quality : String
  patterns : List Pattern
  backups : String → Option String

/-- The backup path built by `updateQualityPrompt` (prompt-manager.js lines
132-137): derived from the calendar date only. -/
def backupPath (dateStr : String) : String :=
  "prompts/quality-" ++ dateStr ++ ".md"

/-- `updateQualityPrompt` (prompt-manager.js lines 131-145): write the current
quality content to the dated backup path, then replace the quality layer with
the new content.  `dateStr` is `new Date().toISOString().split('T')[0]`. -/
def updateQualityPrompt (s : PromptState) (dateStr newContent : String) : PromptState :=
  { s with
    quality := newContent,
    backups := fun p => if p = backupPath dateStr then some s.quality else s.backups p }

/-- `addPattern` (prompt-manager.js lines 147-154): append one pattern, stamped
with `addedAt`.  The `sampleSize` field is already merged in by the caller
(improver.js line 139). -/
def addPattern (s : PromptState) (p : Pattern) : PromptState :=
  { s with patterns := s.patterns ++ [p] }

/-- The per-pattern line of the learned-patterns section (prompt-manager.js
line 124). -/
def renderPattern (p : Pattern) : String :=
  "- " ++ p.description ++ " (" ++ p.impact ++ "x CTR, " ++ toString p.sampleSize
    ++ " samples)\n"

/-- `getSystemPrompt` (prompt-manager.js lines 114-129): base and quality
layers joined by a blank line, with the rendered pattern list appended only
when patterns exist. -/
def getSystemPrompt (s : PromptState) : String :=
  let prompt := s.base ++ "\n\n" ++ s.quality
  if s.patterns.length > 0 then
    prompt ++ "\n\n## LEARNED PATTERNS (from your high-CTR descriptions):\n"
      ++ String.join (s.patterns.map renderPattern)
  else prompt

/-! ## Learner (improver.js) -/

/-- The `opts` payload of a fetched outcome record; absent JSON fields are
`none`. -/
structure OutcomeOpts where
  page : String
  title : String
  description : Option String
  ctr : ℚ
  improvement : String
  baselineCTR : ℚ
  attempts : ℕ
  lastReason : Option String
deriving DecidableEq, Repr

/-- A fetched outcome record; `opts` itself may be absent (`o.opts?`). -/
structure OutcomeRec where
  opts : Option OutcomeOpts
deriving DecidableEq, Repr

/-- A mapped high performer (improver.js lines 47-56). -/
structure HighPerformer where
  page : String
  title : String
  description : String
  ctr : ℚ
  improvement : String
  baselineCTR : ℚ
deriving DecidableEq, Repr

/-- `highPerformers` (improver.js lines 47-56): keep records whose
`opts?.description` is truthy (present and non-empty) and project the fields.
Filter and map are fused into one `filterMap`. -/
def highPerformersOf (outs : List OutcomeRec) : List HighPerformer :=
  outs.filterMap fun o =>
    match o.opts with
    | none => none
    | some t =>
      match t.description with
      | none => none
      | some d => if d == "" then none else
          some ⟨t.page, t.title, d, t.ctr, t.improvement, t.baselineCTR⟩

/-- `lowPerformers` (improver.js lines 58-66): same truthy-description filter,
smaller projection. -/
def lowPerformersOf (outs : List OutcomeRec) : List HighPerformer :=
  outs.filterMap fun o =>
    match o.opts with
    | none => none
    | some t =>
      match t.description with
      | none => none
      | some d => if d == "" then none else
          some ⟨t.page, t.title, d, t.ctr, "", t.baselineCTR⟩

/-- `generationFailures` (improver.js lines 68-75): keep records whose
`opts?.lastReason` is truthy, projected to `(attempts, lastReason)`. -/
def generationFailuresOf (outs : List OutcomeRec) : List (ℕ × String) :=
  outs.filterMap fun o =>
    match o.opts with
    | none => none
    | some t =>
      match t.lastReason with
      | none => none
      | some r => if r == "" then none else some (t.attempts, r)

/-- A pattern as returned by the analysis LLM call (before stamping). -/
structure PatternIn where
  description : String
  «example» : String
  impact : String
  confidence : String
deriving DecidableEq, Repr

/-- The structured response of the first (analysis) LLM call. -/
structure AnalysisResponse where
  patterns : List PatternIn
  improvements : String
  failureInsights : Option (List String)
deriving DecidableEq, Repr

/-- `updateInstructions` (improver.js lines 146-149): the improvement block,
extended with the failure-insights block only when
`analysis.failureInsights?.length` is truthy. -/
def updateInstructions (improvements : String) (failureInsights : Option (List String)) :
    String :=
  let s := "IMPROVEMENTS TO MAKE:\n" ++ improvements
  match failureInsights with
  | none => s
  | some l =>
    if l.length > 0 then
      s ++ "\n\nFAILURE INSIGHTS (the generator struggles with these — address them):\n"
        ++ joinNl l
    else s

/-- The content of the second (quality-rewrite) LLM request (improver.js lines
151-164). -/
def rewriteRequest (currentPrompt instructions : String) : String :=
  "Update this meta description generation prompt with these improvements:\n\nCURRENT PROMPT:\n"
    ++ currentPrompt ++ "\n\n" ++ instructions
    ++ "\n\nReturn the updated prompt. Keep the structure, just integrate the improvements."

/-- A Learner audit event and the counts it carries. -/
structure LearnEvent where
  name : String
  highPerformers : ℕ
  lowPerformers : ℕ
  generationFailures : ℕ
deriving DecidableEq, Repr

/-- What one `analyze` run produced: the return value (`none` below the data
floor), the resulting prompt state, the content of the quality-rewrite request
when one was made, and the emitted outcome events. -/
structure AnalyzeOutput where
  result : Option ℕ
  state : PromptState
  secondRequest : Option String
  events : List LearnEvent

/-- `analyze` (improver.js lines 37-180).  The three outcome lists are the
already-fetched pages of the trailing 30-day window; the two LLM responses are
oracle parameters (`analysisResp` for the pattern-extraction call,
`rewriteResp` for the quality-rewrite call); `now` and `dateStr` stand for the
timestamp and calendar date.  Below the 5-high-performer floor the run emits
`Insufficient Data` and returns `null` without touching the prompt state;
otherwise every returned pattern is appended (stamped with the sample size and
timestamp), the quality rewrite is requested with the current system prompt
and the update instructions, and its response replaces the quality layer via
`updateQualityPrompt`. -/
def analyze (s : PromptState)
    (highCTROutcomes noImprovementOutcomes genFailureOutcomes : List OutcomeRec)
    (analysisResp : AnalysisResponse) (rewriteResp : String)
    (now dateStr : String) : AnalyzeOutput :=
  let highPerformers := highPerformersOf highCTROutcomes
  let lowPerformers := lowPerformersOf noImprovementOutcomes
  let generationFailures := generationFailuresOf genFailureOutcomes
  if highPerformers.length < 5 then
    ⟨none, s, none, [⟨"Insufficient Data", highPerformers.length, 0, 0⟩]⟩
  else
    let s1 := analysisResp.patterns.foldl
      (fun st p => addPattern st ⟨p.description, p.«example», p.impact, p.confidence,
        highPerformers.length, now⟩) s
    let currentPrompt := getSystemPrompt s1
    let instructions := updateInstructions analysisResp.improvements analysisResp.failureInsights
    let req := rewriteRequest currentPrompt instructions
    let s2 := updateQualityPrompt s1 dateStr rewriteResp
    ⟨some analysisResp.patterns.length, s2, some req,
      [⟨"Patterns Learned", highPerformers.length, lowPerformers.length,
        generationFailures.length⟩]⟩

/-! ## String containment -/

/-- `contains big small`: `small` occurs verbatim inside `big`. -/
def strContains (big small : String) : Prop :=
  ∃ l r, big = l ++ small ++ r

/-- Containment is transitive. -/
theorem strContains_trans {a b c : String} (h1 : strContains b a) (h2 : strContains c b) :
    strContains c a := by
  obtain ⟨l1, r1, hb⟩ := h1
  obtain ⟨l2, r2, hc⟩ := h2
  exact ⟨l2 ++ l1, r1 ++ r2, by rw [hc, hb]; simp [String.append_assoc]⟩

/-- A middle factor of a concatenation is contained in it. -/
theorem strContains_middle (l s r : String) : strContains (l ++ s ++ r) s :=
  ⟨l, r, rfl⟩

/-- A left factor is contained in a concatenation. -/
theorem strContains_left (s r : String) : strContains (s ++ r) s :=
  ⟨"", r, by rw [String.empty_append]⟩

/-- A right factor is contained in a concatenation. -/
theorem strContains_right (l s : String) : strContains (l ++ s) s :=
  ⟨l, "", by rw [String.append_empty]⟩

/-- Every element of a list is contained in its newline join. -/
theorem joinNl_contains {l : List String} {s : String} (h : s ∈ l) :
    strContains (joinNl l) s := by
  induction l with
  | nil => cases h
  | cons a t ih =>
    cases t with
    | nil =>
      rcases List.mem_singleton.mp h with rfl
      exact ⟨"", "", by rw [String.empty_append, String.append_empty]; rfl⟩
    | cons b t2 =>
      rcases List.mem_cons.mp h with rfl | hmem
      · exact ⟨"", "\n" ++ joinNl (b :: t2), by
          rw [String.empty_append]
          simp [joinNl, String.append_assoc]⟩
      · obtain ⟨l1, r1, hj⟩ := ih hmem
        exact ⟨a ++ "\n" ++ l1, r1, by simp [joinNl, hj, String.append_assoc]⟩

/-- C7: for all descriptions and bounds, the length validator passes exactly
when the description length lies in the closed interval `[min, max]`, and on
failure its reason string names the actual length and both bounds. -/
theorem lengthValidator_boundary (g : Generated) (min max : ℕ) :
    ((lengthValidator min max g).pass = true ↔
      (min ≤ g.description.length ∧ g.description.length ≤ max)) ∧
    ((lengthValidator min max g).pass = false →
      (lengthValidator min max g).reason
        = some ("Description is " ++ toString g.description.length ++ " chars, must be "
            ++ toString min ++ "-" ++ toString max)) := by
  by_cases hc : g.description.length < min ∨ g.description.length > max
  · simp only [lengthValidator, if_pos hc]
    refine ⟨⟨fun hff => by simp at hff, fun hin => ?_⟩, fun _ => trivial⟩
    exfalso
    rcases hc with h | h <;> omega
  · simp only [lengthValidator, if_neg hc]
    refine ⟨⟨fun _ => by omega, fun _ => trivial⟩, fun hff => by simp at hff⟩

/-- Witness for C7 at the default bounds: a 150-character description passes,
and the bounds are recovered from the theorem at that input. -/
theorem lengthValidator_boundary_witness :
    (lengthValidator 140 160 ⟨"t", String.mk (List.replicate 150 'A')⟩).pass = true ↔
      (140 ≤ (String.mk (List.replicate 150 'A')).length ∧
       (String.mk (List.replicate 150 'A')).length ≤ 160) :=
  (lengthValidator_boundary ⟨"t", String.mk (List.replicate 150 'A')⟩ 140 160).1

/-- C9: `updateQualityPrompt` archives the pre-update quality content verbatim
under the dated backup key and replaces the quality layer with the new
content: afterwards the backup holds exactly the prior quality text, the
quality layer holds the new text, and base and patterns are untouched. -/
theorem updateQualityPrompt_backup_roundtrip (s : PromptState) (dateStr newContent : String) :
    (updateQualityPrompt s dateStr newContent).backups (backupPath dateStr) = some s.quality ∧
    (updateQualityPrompt s dateStr newContent).quality = newContent ∧
    (updateQualityPrompt s dateStr newContent).base = s.base ∧
    (updateQualityPrompt s dateStr newContent).patterns = s.patterns := by
  refine ⟨?_, rfl, rfl, rfl⟩
  simp [updateQualityPrompt]

/-- C10: the backup key depends on the calendar date only, so a second
same-day update writes its backup over the first one's: after two updates on
one date the archive at that date's key holds the second call's pre-update
content (the first call's new content), the first call's archived content
having been overwritten. -/
theorem updateQualityPrompt_same_day_overwrite (s : PromptState) (d n₁ n₂ : String) :
    (updateQualityPrompt (updateQualityPrompt s d n₁) d n₂).backups (backupPath d)
      = some n₁ ∧
    (updateQualityPrompt s d n₁).backups (backupPath d) = some s.quality ∧
    (updateQualityPrompt (updateQualityPrompt s d n₁) d n₂).quality = n₂ := by
  refine ⟨?_, ?_, rfl⟩ <;> simp [updateQualityPrompt]

/-- C1: a tracked record with no baseline click rate (eligible: not failed,
old enough, metrics present with at least 10 impressions) is classified by its
absolute current click rate — `≥ 0.05` High CTR, `≥ 0.03` Improved, otherwise
No Improvement — and is counted as tracked, not dropped. -/
theorem trackRecordOutcome_no_baseline (minDays : ℕ) (r : TrackedRecord) (p : Perf)
    (h1 : r.failed = false) (h2 : minDays ≤ r.ageDays) (h3 : r.perf = some p)
    (h4 : 10 ≤ p.impressions) (h5 : r.baseline = none) :
    trackRecordOutcome minDays r = some (classifyAbsolute p.ctr) ∧
    (0.05 ≤ p.ctr → classifyAbsolute p.ctr = .highCTR) ∧
    (0.03 ≤ p.ctr ∧ p.ctr < 0.05 → classifyAbsolute p.ctr = .improved) ∧
    (p.ctr < 0.03 → classifyAbsolute p.ctr = .noImprovement) ∧
    trackPerformance minDays [r] = (1, if 0.05 ≤ p.ctr then 1 else 0) := by
  have hout : trackRecordOutcome minDays r = some (classifyAbsolute p.ctr) := by
    simp only [trackRecordOutcome, h1, h3, h5]
    rw [if_neg (by simp), if_neg (by omega), if_neg (by omega)]
  refine ⟨hout, ?_, ?_, ?_, ?_⟩
  · intro h
    simp only [classifyAbsolute, ge_iff_le, if_pos h]
  · rintro ⟨h1', h2'⟩
    simp only [classifyAbsolute, ge_iff_le]
    rw [if_neg (by exact not_le.mpr h2'), if_pos h1']
  · intro h
    simp only [classifyAbsolute, ge_iff_le]
    rw [if_neg (by exact not_le.mpr (h.trans (by norm_num))), if_neg (by exact not_le.mpr h)]
  · simp only [trackPerformance, List.foldl_cons, List.foldl_nil, hout]
    by_cases hh : 0.05 ≤ p.ctr
    · rw [if_pos hh]
      simp only [classifyAbsolute, ge_iff_le, if_pos hh]
    · rw [if_neg hh]
      by_cases hm : 0.03 ≤ p.ctr
      · simp only [classifyAbsolute, ge_iff_le, if_neg hh, if_pos hm]
      · simp only [classifyAbsolute, ge_iff_le, if_neg hh, if_neg hm]

/-- Witness for C1: an eligible record with no baseline and current click rate
0.04 is classified (as `Improved`) and counted as tracked. -/
theorem trackRecordOutcome_no_baseline_witness :
    (7 ≤ 10 ∧ 10 ≤ 50) ∧
    trackRecordOutcome 7 ⟨false, 10, none, some ⟨0.04, 50⟩⟩
      = some (classifyAbsolute 0.04) ∧
    trackPerformance 7 [⟨false, 10, none, some ⟨0.04, 50⟩⟩]
      = (1, if (0.05 : ℚ) ≤ 0.04 then 1 else 0) := by
  have h := trackRecordOutcome_no_baseline 7 ⟨false, 10, none, some ⟨0.04, 50⟩⟩
    ⟨0.04, 50⟩ rfl (by norm_num) rfl (by norm_num) rfl
  exact ⟨⟨by norm_num, by norm_num⟩, h.1, h.2.2.2.2⟩

/-- C6: with a baseline, the tracker classifies by the relative improvement
`(current − baseline) / baseline` with strict thresholds — strictly above 0.20
is High CTR (and bumps the high-performer counter), strictly positive up to
and including 0.20 is Improved, non-positive is No Improvement. -/
theorem tracker_baseline_strict (current baseline : ℚ) (impressions : ℕ) (url : String)
    (_hb : 0 < baseline) (hi : 10 ≤ impressions) :
    (0.2 < (current - baseline) / baseline →
      classifyImprovement ((current - baseline) / baseline) = .highCTR) ∧
    (0 < (current - baseline) / baseline ∧ (current - baseline) / baseline ≤ 0.2 →
      classifyImprovement ((current - baseline) / baseline) = .improved) ∧
    ((current - baseline) / baseline ≤ 0 →
      classifyImprovement ((current - baseline) / baseline) = .noImprovement) ∧
    (∀ t h : ℕ, trackStep (t, h) ⟨url, baseline, some ⟨current, impressions⟩⟩
      = (t + 1, h + if classifyImprovement ((current - baseline) / baseline)
          = OutcomeCategory.highCTR then 1 else 0)) := by
  refine ⟨?_, ?_, ?_, ?_⟩
  · intro h
    simp only [classifyImprovement, gt_iff_lt, if_pos h]
  · rintro ⟨h1', h2'⟩
    simp only [classifyImprovement, gt_iff_lt]
    rw [if_neg (by exact not_lt.mpr h2'), if_pos h1']
  · intro h
    simp only [classifyImprovement, gt_iff_lt]
    rw [if_neg (by exact not_lt.mpr (h.trans (by norm_num))), if_neg (by exact not_lt.mpr h)]
  · intro t h
    simp only [trackStep, if_neg (by omega : ¬ impressions < 10)]
    rcases hc : classifyImprovement ((current - baseline) / baseline) with _ | _ | _ | _
    · simp [hc]
    · simp [hc]
    · simp [hc]
    · simp [hc]

/-- Witness for C6: baseline 0.03 and observed 0.036 is an improvement of
exactly 20% and classifies as `Improved`, not `High CTR`; observed 0.0361
classifies as `High CTR`. -/
theorem tracker_baseline_strict_witness :
    (0 : ℚ) < 0.03 ∧
    classifyImprovement (((0.036 : ℚ) - 0.03) / 0.03) = .improved ∧
    classifyImprovement (((0.0361 : ℚ) - 0.03) / 0.03) = .highCTR := by
  refine ⟨by norm_num, ?_, ?_⟩
  · exact (tracker_baseline_strict 0.036 0.03 100 "/page" (by norm_num) (by norm_num)).2.1
      ⟨by norm_num, by norm_num⟩
  · exact (tracker_baseline_strict 0.0361 0.03 100 "/page" (by norm_num) (by norm_num)).1
      (by norm_num)

/-- The current quality layer occurs verbatim inside the rendered system
prompt. -/
theorem getSystemPrompt_contains_quality (st : PromptState) :
    strContains (getSystemPrompt st) st.quality := by
  unfold getSystemPrompt
  by_cases h : st.patterns.length > 0
  · rw [if_pos h]
    exact ⟨st.base ++ "\n\n",
      "\n\n## LEARNED PATTERNS (from your high-CTR descriptions):\n"
        ++ String.join (st.patterns.map renderPattern), by simp [String.append_assoc]⟩
  · rw [if_neg h]
    exact ⟨st.base ++ "\n\n", "", by rw [String.append_empty]⟩

/-- The current prompt occurs verbatim inside the quality-rewrite request. -/
theorem rewriteRequest_contains_prompt (cp instr : String) :
    strContains (rewriteRequest cp instr) cp :=
  ⟨"Update this meta description generation prompt with these improvements:\n\nCURRENT PROMPT:\n",
   "\n\n" ++ instr
     ++ "\n\nReturn the updated prompt. Keep the structure, just integrate the improvements.",
   by simp [rewriteRequest, String.append_assoc]⟩

/-- The update instructions occur verbatim inside the quality-rewrite request. -/
theorem rewriteRequest_contains_instructions (cp instr : String) :
    strContains (rewriteRequest cp instr) instr :=
  ⟨"Update this meta description generation prompt with these improvements:\n\nCURRENT PROMPT:\n"
     ++ cp ++ "\n\n",
   "\n\nReturn the updated prompt. Keep the structure, just integrate the improvements.",
   by simp [rewriteRequest, String.append_assoc]⟩

/-- Folding `addPattern` over a list only appends to the pattern layer. -/
theorem foldl_addPattern (f : PatternIn → Pattern) :
    ∀ (l : List PatternIn) (s : PromptState),
      (l.foldl (fun st p => addPattern st (f p)) s).base = s.base ∧
      (l.foldl (fun st p => addPattern st (f p)) s).quality = s.quality ∧
      (l.foldl (fun st p => addPattern st (f p)) s).backups = s.backups ∧
      (l.foldl (fun st p => addPattern st (f p)) s).patterns = s.patterns ++ l.map f := by
  intro l
  induction l with
  | nil => intro s; simp
  | cons p t ih =>
    intro s
    simp only [List.foldl_cons, List.map_cons]
    obtain ⟨h1, h2, h3, h4⟩ := ih (addPattern s (f p))
    refine ⟨h1, h2, h3, ?_⟩
    rw [h4]
    simp [addPattern]

/-- C8: when fewer than 5 high performers are collected, the Learner emits
`Insufficient Data`, returns the no-result marker, makes no rewrite request,
and leaves the whole prompt state (all layers and backups) unchanged. -/
theorem analyze_insufficient_data (s : PromptState)
    (high noimp genfail : List OutcomeRec) (aresp : AnalysisResponse)
    (rresp now dateStr : String)
    (hfloor : (highPerformersOf high).length < 5) :
    (analyze s high noimp genfail aresp rresp now dateStr).result = none ∧
    (analyze s high noimp genfail aresp rresp now dateStr).state = s ∧
    (analyze s high noimp genfail aresp rresp now dateStr).secondRequest = none ∧
    (analyze s high noimp genfail aresp rresp now dateStr).events
      = [⟨"Insufficient Data", (highPerformersOf high).length, 0, 0⟩] := by
  simp only [analyze, if_pos hfloor]
  refine ⟨?_, ?_, ?_, ?_⟩ <;> trivial

/-- Witness for C8: with no fetched outcomes at all the floor fails, nothing
is touched and the no-result marker comes back. -/
theorem analyze_insufficient_data_witness :
    (highPerformersOf []).length < 5 ∧
    (analyze ⟨"B", "Q", [], fun _ => none⟩ [] [] [] ⟨[], "imp", none⟩ "R" "now" "d").result
      = none ∧
    (analyze ⟨"B", "Q", [], fun _ => none⟩ [] [] [] ⟨[], "imp", none⟩ "R" "now" "d").state
      = ⟨"B", "Q", [], fun _ => none⟩ := by
  have h := analyze_insufficient_data ⟨"B", "Q", [], fun _ => none⟩ [] [] []
    ⟨[], "imp", none⟩ "R" "now" "d" (by simp [highPerformersOf])
  exact ⟨by simp [highPerformersOf], h.1, h.2.1⟩

/-- C2: past the data floor, the quality-rewrite request contains the current
quality layer verbatim together with the improvement instructions (and any
failure insights), and its response replaces exactly the quality layer: the
new quality layer is the response, while base is untouched and the pattern
layer carries only the stamped patterns of the analysis response. -/
theorem analyze_rewrite_request (s : PromptState)
    (high noimp genfail : List OutcomeRec) (aresp : AnalysisResponse)
    (rresp now dateStr : String)
    (hfloor : ¬ (highPerformersOf high).length < 5) :
    ∃ req, (analyze s high noimp genfail aresp rresp now dateStr).secondRequest = some req ∧
      strContains req s.quality ∧
      strContains req (updateInstructions aresp.improvements aresp.failureInsights) ∧
      (analyze s high noimp genfail aresp rresp now dateStr).state.quality = rresp ∧
      (analyze s high noimp genfail aresp rresp now dateStr).state.base = s.base ∧
      (analyze s high noimp genfail aresp rresp now dateStr).state.patterns
        = s.patterns ++ aresp.patterns.map (fun p =>
            ⟨p.description, p.«example», p.impact, p.confidence,
             (highPerformersOf high).length, now⟩) := by
  simp only [analyze, if_neg hfloor]
  obtain ⟨hb, hq, _hbk, hp⟩ := foldl_addPattern
    (fun p => (⟨p.description, p.«example», p.impact, p.confidence,
      (highPerformersOf high).length, now⟩ : Pattern)) aresp.patterns s
  refine ⟨_, rfl, ?_, ?_, rfl, hb, ?_⟩
  · exact strContains_trans (hq ▸ getSystemPrompt_contains_quality _)
      (rewriteRequest_contains_prompt _ _)
  · exact rewriteRequest_contains_instructions _ _
  · exact hp

/-- Witness for C2 at five concrete high performers and a one-pattern
analysis response. -/
theorem analyze_rewrite_request_witness :
    ¬ (highPerformersOf (List.replicate 5 ⟨some ⟨"p", "t", some "d", 0, "", 0, 0, none⟩⟩)).length < 5 ∧
    ∃ req, (analyze ⟨"B", "Q", [], fun _ => none⟩
        (List.replicate 5 ⟨some ⟨"p", "t", some "d", 0, "", 0, 0, none⟩⟩) [] []
        ⟨[⟨"pat", "ex", "2.1", "high"⟩], "imp", none⟩ "R" "now" "d").secondRequest = some req ∧
      strContains req "Q" ∧
      strContains req (updateInstructions "imp" none) ∧
      (analyze ⟨"B", "Q", [], fun _ => none⟩
        (List.replicate 5 ⟨some ⟨"p", "t", some "d", 0, "", 0, 0, none⟩⟩) [] []
        ⟨[⟨"pat", "ex", "2.1", "high"⟩], "imp", none⟩ "R" "now" "d").state.quality = "R" ∧
      (analyze ⟨"B", "Q", [], fun _ => none⟩
        (List.replicate 5 ⟨some ⟨"p", "t", some "d", 0, "", 0, 0, none⟩⟩) [] []
        ⟨[⟨"pat", "ex", "2.1", "high"⟩], "imp", none⟩ "R" "now" "d").state.base = "B" ∧
      (analyze ⟨"B", "Q", [], fun _ => none⟩
        (List.replicate 5 ⟨some ⟨"p", "t", some "d", 0, "", 0, 0, none⟩⟩) [] []
        ⟨[⟨"pat", "ex", "2.1", "high"⟩], "imp", none⟩ "R" "now" "d").state.patterns
        = [] ++ [⟨"pat", "ex", "2.1", "high"⟩].map (fun p : PatternIn =>
            (⟨p.description, p.«example», p.impact, p.confidence,
             (highPerformersOf (List.replicate 5 ⟨some ⟨"p", "t", some "d", 0, "", 0, 0, none⟩⟩)).length,
             "now"⟩ : Pattern)) := by
  have hfloor : ¬ (highPerformersOf
      (List.replicate 5 ⟨some ⟨"p", "t", some "d", 0, "", 0, 0, none⟩⟩)).length < 5 := by
    simp [highPerformersOf, List.replicate]
  exact ⟨hfloor, analyze_rewrite_request ⟨"B", "Q", [], fun _ => none⟩ _ [] []
    ⟨[⟨"pat", "ex", "2.1", "high"⟩], "imp", none⟩ "R" "now" "d" hfloor⟩

/-- Unfolding: with fuel left, a transport error on this attempt's call aborts
the candidate with exactly this attempt's request in the trace. -/
theorem retryGo_error (llm : ℕ → Except String Generated) (validators : List Validator)
    (sys usr : String) (maxRetries attempt fuel : ℕ) (history : List HistEntry)
    (lastReason : Option String) (e : String) (hl : llm attempt = .error e) :
    retryGo llm validators sys usr maxRetries attempt (fuel + 1) history lastReason
      = ([attemptMessages sys usr history], .error e) := by
  simp only [retryGo, hl]

/-- Unfolding: with fuel left, a response that passes the chain succeeds. -/
theorem retryGo_pass (llm : ℕ → Except String Generated) (validators : List Validator)
    (sys usr : String) (maxRetries attempt fuel : ℕ) (history : List HistEntry)
    (lastReason : Option String) (g : Generated) (hl : llm attempt = .ok g)
    (hc : chainFailedReason validators g = none) :
    retryGo llm validators sys usr maxRetries attempt (fuel + 1) history lastReason
      = ([attemptMessages sys usr history], .ok (.success g)) := by
  simp only [retryGo, hl, hc]

/-- Unfolding: with fuel left, a rejected response recurses with the rejection
appended to the history. -/
theorem retryGo_fail (llm : ℕ → Except String Generated) (validators : List Validator)
    (sys usr : String) (maxRetries attempt fuel : ℕ) (history : List HistEntry)
    (lastReason : Option String) (g : Generated) (reason : String)
    (hl : llm attempt = .ok g) (hc : chainFailedReason validators g = some reason) :
    retryGo llm validators sys usr maxRetries attempt (fuel + 1) history lastReason
      = ((attemptMessages sys usr history) ::
          (retryGo llm validators sys usr maxRetries (attempt + 1) fuel
            (history ++ [⟨attempt, reason, some g⟩]) (some reason)).1,
         (retryGo llm validators sys usr maxRetries (attempt + 1) fuel
            (history ++ [⟨attempt, reason, some g⟩]) (some reason)).2) := by
  simp only [retryGo, hl, hc]

/-- When every response is rejected by the chain and no call throws, the loop
burns all its fuel and ends in the exhaustion failure, growing the history by
one entry per attempt. -/
theorem retryGo_always_fail (llm : ℕ → Except String Generated)
    (validators : List Validator) (sys usr : String) (maxRetries : ℕ)
    (hok : ∀ i, ∃ g, llm i = .ok g)
    (hfail : ∀ g : Generated, ∃ r, chainFailedReason validators g = some r) :
    ∀ (fuel attempt : ℕ) (history : List HistEntry) (lastReason : Option String),
      ∃ lr hist,
        (retryGo llm validators sys usr maxRetries attempt fuel history lastReason).2
          = .ok (.failure maxRetries lr hist) ∧
        hist.length = history.length + fuel := by
  intro fuel
  induction fuel with
  | zero =>
    intro attempt history lastReason
    exact ⟨lastReason, history, rfl, by simp⟩
  | succ f ih =>
    intro attempt history lastReason
    obtain ⟨g, hg⟩ := hok attempt
    obtain ⟨r, hr⟩ := hfail g
    rw [retryGo_fail llm validators sys usr maxRetries attempt f history lastReason g r hg hr]
    obtain ⟨lr, hist, heq, hlen⟩ :=
      ih (attempt + 1) (history ++ [⟨attempt, r, some g⟩]) (some r)
    exact ⟨lr, hist, heq, by simp at hlen; omega⟩

/-- The per-page step only appends to the accumulated result lists. -/
theorem genStep_acc (llmFor : Page → ℕ → Except String Generated)
    (validators : List Validator) (sys : String) (usrOf : Page → String) (mr : ℕ)
    (p : Page) (a : List SuccessRecord) (b : List FailRecord) :
    genStep llmFor validators sys usrOf mr (a, b) p
      = (a ++ (genStep llmFor validators sys usrOf mr ([], []) p).1,
         b ++ (genStep llmFor validators sys usrOf mr ([], []) p).2) := by
  rcases h : (generateWithRetry (llmFor p) validators sys (usrOf p) mr).2 with e | r
  · simp [genStep, h]
  · rcases r with g | ⟨att, lr, hist⟩ <;> simp [genStep, h]

/-- Folding the page loop from any accumulator appends what folding from the
empty accumulator produces. -/
theorem foldl_genStep_shift (llmFor : Page → ℕ → Except String Generated)
    (validators : List Validator) (sys : String) (usrOf : Page → String) (mr : ℕ) :
    ∀ (pages : List Page) (a : List SuccessRecord) (b : List FailRecord),
      pages.foldl (genStep llmFor validators sys usrOf mr) (a, b)
        = (a ++ (pages.foldl (genStep llmFor validators sys usrOf mr) ([], [])).1,
           b ++ (pages.foldl (genStep llmFor validators sys usrOf mr) ([], [])).2) := by
  intro pages
  induction pages with
  | nil => intro a b; simp
  | cons p t ih =>
    intro a b
    obtain ⟨x, y, hxy⟩ : ∃ x y, genStep llmFor validators sys usrOf mr ([], []) p = (x, y) :=
      ⟨_, _, rfl⟩
    have hab : genStep llmFor validators sys usrOf mr (a, b) p = (a ++ x, b ++ y) := by
      rw [genStep_acc llmFor validators sys usrOf mr p a b, hxy]
    simp only [List.foldl_cons, hab, hxy]
    rw [ih (a ++ x) (b ++ y), ih x y]
    simp [List.append_assoc]

/-- `options.maxRetries || 3` is always positive. -/
theorem jsOrNum_pos (o : Option ℕ) : 0 < jsOrNum o 3 := by
  rcases o with _ | n
  · simp [jsOrNum]
  · rcases n with _ | m <;> simp [jsOrNum]

/-- A positive explicit `maxRetries` option is taken as given. -/
theorem jsOrNum_some_pos (n : ℕ) (h : 0 < n) : jsOrNum (some n) 3 = n := by
  rcases n with _ | m
  · omega
  · simp [jsOrNum]

/-- C4: a transport error on a candidate's first LLM call yields a Failure
with zero attempts and a one-entry history carrying the error message,
independent of the configured `maxRetries`; exactly one request was sent for
that candidate (no retry), and the rest of the batch is processed exactly as
it would be without that candidate. -/
theorem generate_transport_error (llmFor : Page → ℕ → Except String Generated)
    (validators : List Validator) (sys : String) (usrOf : Page → String)
    (mro : Option ℕ) (p : Page) (e : String) (rest : List Page)
    (herr : llmFor p 1 = .error e) :
    generate llmFor validators sys usrOf mro (p :: rest)
      = ((generate llmFor validators sys usrOf mro rest).1,
         (⟨p.url, 0, some e, [⟨0, e, none⟩]⟩ : FailRecord)
           :: (generate llmFor validators sys usrOf mro rest).2) ∧
    (generateWithRetry (llmFor p) validators sys (usrOf p) (jsOrNum mro 3)).1.length = 1 := by
  obtain ⟨f, hf⟩ : ∃ f, jsOrNum mro 3 = f + 1 :=
    ⟨jsOrNum mro 3 - 1, by have := jsOrNum_pos mro; omega⟩
  have hrun : generateWithRetry (llmFor p) validators sys (usrOf p) (jsOrNum mro 3)
      = ([attemptMessages sys (usrOf p) []], .error e) := by
    rw [generateWithRetry, hf]
    exact retryGo_error (llmFor p) validators sys (usrOf p) (f + 1) 1 f [] none e herr
  constructor
  · show (p :: rest).foldl (genStep llmFor validators sys usrOf (jsOrNum mro 3)) ([], []) = _
    rw [List.foldl_cons]
    have hstep : genStep llmFor validators sys usrOf (jsOrNum mro 3) ([], []) p
        = ([], [⟨p.url, 0, some e, [⟨0, e, none⟩]⟩]) := by
      simp [genStep, hrun]
    rw [hstep, foldl_genStep_shift]
    simp [generate]
  · rw [hrun]
    rfl

/-- Witness for C4: one candidate whose call is rejected by the provider,
followed by an empty rest of the batch. -/
theorem generate_transport_error_witness :
    ((fun (_ : Page) (_ : ℕ) => (Except.error "API rate limit" : Except String Generated))
        ⟨"https://example.com/page", 0.02, 1000⟩ 1 = .error "API rate limit") ∧
    generate (fun _ _ => .error "API rate limit") [] "sys" (fun _ => "usr") (some 3)
        [⟨"https://example.com/page", 0.02, 1000⟩]
      = ((generate (fun _ _ => .error "API rate limit") [] "sys" (fun _ => "usr") (some 3) []).1,
         (⟨"https://example.com/page", 0, some "API rate limit",
            [⟨0, "API rate limit", none⟩]⟩ : FailRecord)
           :: (generate (fun _ _ => .error "API rate limit") [] "sys" (fun _ => "usr")
                (some 3) []).2) :=
  ⟨rfl, (generate_transport_error (fun _ _ => .error "API rate limit") [] "sys"
    (fun _ => "usr") (some 3) ⟨"https://example.com/page", 0.02, 1000⟩
    "API rate limit" [] rfl).1⟩

/-- C5: with an always-failing validator chain (and no transport errors) every
candidate of the batch ends in exactly one Failure with `attempts = maxRetries`
and a history of length `maxRetries`, and the batch produces no Success. -/
theorem generate_exhaustion (llmFor : Page → ℕ → Except String Generated)
    (validators : List Validator) (sys : String) (usrOf : Page → String)
    (maxRetries : ℕ) (pages : List Page)
    (hmr : 0 < maxRetries)
    (hok : ∀ p i, ∃ g, llmFor p i = Except.ok g)
    (hfail : ∀ g : Generated, ∃ r, chainFailedReason validators g = some r) :
    (generate llmFor validators sys usrOf (some maxRetries) pages).1 = [] ∧
    (generate llmFor validators sys usrOf (some maxRetries) pages).2.length = pages.length ∧
    ∀ f ∈ (generate llmFor validators sys usrOf (some maxRetries) pages).2,
      f.attempts = maxRetries ∧ f.history.length = maxRetries := by
  have hj := jsOrNum_some_pos maxRetries hmr
  induction pages with
  | nil => exact ⟨rfl, rfl, by intro f hf; cases hf⟩
  | cons p t ih =>
    obtain ⟨lr, hist, heq, hlen⟩ := retryGo_always_fail (llmFor p) validators sys (usrOf p)
      (jsOrNum (some maxRetries) 3) (hok p) hfail (jsOrNum (some maxRetries) 3) 1 [] none
    have hstep : genStep llmFor validators sys usrOf (jsOrNum (some maxRetries) 3) ([], []) p
        = ([], [⟨p.url, jsOrNum (some maxRetries) 3, lr, hist⟩]) := by
      simp [genStep, generateWithRetry, heq]
    have hunfold : generate llmFor validators sys usrOf (some maxRetries) (p :: t)
        = ([] ++ (generate llmFor validators sys usrOf (some maxRetries) t).1,
           [⟨p.url, jsOrNum (some maxRetries) 3, lr, hist⟩]
             ++ (generate llmFor validators sys usrOf (some maxRetries) t).2) := by
      show (p :: t).foldl (genStep llmFor validators sys usrOf (jsOrNum (some maxRetries) 3))
        ([], []) = _
      rw [List.foldl_cons, hstep, foldl_genStep_shift]
      rfl
    obtain ⟨ih1, ih2, ih3⟩ := ih
    refine ⟨?_, ?_, ?_⟩
    · rw [hunfold]
      simpa using ih1
    · rw [hunfold]
      simp [ih2]
    · rw [hunfold]
      intro f hf
      simp only [List.nil_append, List.singleton_append, List.mem_cons] at hf
      rcases hf with rfl | hf
      · constructor
        · exact hj
        · rw [hj] at hlen
          simpa using hlen
      · exact ih3 f hf

/-- Witness for C5: one candidate, a validator that always fails with reason
`Always fails`, `maxRetries = 2`. -/
theorem generate_exhaustion_witness :
    (0 < 2 ∧
      (∀ (p : Page) (i : ℕ), ∃ g, (fun (_ : Page) (_ : ℕ) =>
        (Except.ok ⟨"T", "D"⟩ : Except String Generated)) p i = Except.ok g) ∧
      (∀ g : Generated, ∃ r, chainFailedReason
        [fun _ => ⟨false, some "Always fails", []⟩] g = some r)) ∧
    (generate (fun _ _ => .ok ⟨"T", "D"⟩) [fun _ => ⟨false, some "Always fails", []⟩]
        "sys" (fun _ => "usr") (some 2) [⟨"https://example.com/page", 0.02, 1000⟩]).1 = [] ∧
    (generate (fun _ _ => .ok ⟨"T", "D"⟩) [fun _ => ⟨false, some "Always fails", []⟩]
        "sys" (fun _ => "usr") (some 2) [⟨"https://example.com/page", 0.02, 1000⟩]).2.length = 1 ∧
    ∀ f ∈ (generate (fun _ _ => .ok ⟨"T", "D"⟩) [fun _ => ⟨false, some "Always fails", []⟩]
        "sys" (fun _ => "usr") (some 2) [⟨"https://example.com/page", 0.02, 1000⟩]).2,
      f.attempts = 2 ∧ f.history.length = 2 := by
  have h := generate_exhaustion (fun _ _ => .ok ⟨"T", "D"⟩)
    [fun _ => ⟨false, some "Always fails", []⟩] "sys" (fun _ => "usr") 2
    [⟨"https://example.com/page", 0.02, 1000⟩] (by omega)
    (fun _ _ => ⟨⟨"T", "D"⟩, rfl⟩) (fun g => ⟨"Always fails", rfl⟩)
  exact ⟨⟨by omega, fun _ _ => ⟨⟨"T", "D"⟩, rfl⟩, fun g => ⟨"Always fails", rfl⟩⟩,
    h.1, h.2.1.trans rfl, h.2.2⟩

/-- The instruction to produce something fundamentally different occurs inside
the fixed header of the rejection block. -/
theorem rejectionHeader_phrase :
    strContains
      "Previous attempts were all rejected. Do NOT make minor tweaks — write something fundamentally different.\n\n"
      "fundamentally different" :=
  ⟨"Previous attempts were all rejected. Do NOT make minor tweaks — write something ",
   ".\n\n", by rfl⟩

/-- As long as the first `j` attempts starting at `attempt` are all rejected
(with the given responses and truthy reasons) and fuel remains, the `j`-th
request of the trace is built from the starting history extended by exactly
those `j` rejections, in order. -/
theorem retryGo_trace (llm : ℕ → Except String Generated) (validators : List Validator)
    (sys usr : String) (maxRetries : ℕ) (resp : ℕ → Generated) (rsn : ℕ → String) :
    ∀ (j fuel attempt : ℕ) (history : List HistEntry) (lastReason : Option String),
      j < fuel →
      (∀ i, attempt ≤ i → i < attempt + j →
        llm i = .ok (resp i) ∧ chainFailedReason validators (resp i) = some (rsn i)) →
      (retryGo llm validators sys usr maxRetries attempt fuel history lastReason).1.get? j
        = some (attemptMessages sys usr (history ++ (List.range j).map
            (fun i => ⟨attempt + i, rsn (attempt + i), some (resp (attempt + i))⟩))) := by
  intro j
  induction j with
  | zero =>
    intro fuel attempt history lastReason hj _
    obtain ⟨f, rfl⟩ : ∃ f, fuel = f + 1 := ⟨fuel - 1, by omega⟩
    rcases hl : llm attempt with e | g
    · rw [retryGo_error llm validators sys usr maxRetries attempt f history lastReason e hl]
      simp
    · rcases hc : chainFailedReason validators g with _ | r
      · rw [retryGo_pass llm validators sys usr maxRetries attempt f history lastReason g hl hc]
        simp
      · rw [retryGo_fail llm validators sys usr maxRetries attempt f history lastReason g r hl hc]
        simp
  | succ j ih =>
    intro fuel attempt history lastReason hj hrej
    obtain ⟨f, rfl⟩ : ∃ f, fuel = f + 1 := ⟨fuel - 1, by omega⟩
    obtain ⟨h1, h2⟩ := hrej attempt (le_refl attempt) (by omega)
    rw [retryGo_fail llm validators sys usr maxRetries attempt f history lastReason
      (resp attempt) (rsn attempt) h1 h2]
    have hstep : ((attemptMessages sys usr history ::
        (retryGo llm validators sys usr maxRetries (attempt + 1) f
          (history ++ [⟨attempt, rsn attempt, some (resp attempt)⟩]) (some (rsn attempt))).1,
        (retryGo llm validators sys usr maxRetries (attempt + 1) f
          (history ++ [⟨attempt, rsn attempt, some (resp attempt)⟩]) (some (rsn attempt))).2)).1.get?
          (j + 1)
        = (retryGo llm validators sys usr maxRetries (attempt + 1) f
            (history ++ [⟨attempt, rsn attempt, some (resp attempt)⟩])
            (some (rsn attempt))).1.get? j := rfl
    rw [hstep, ih f (attempt + 1)
      (history ++ [(⟨attempt, rsn attempt, some (resp attempt)⟩ : HistEntry)])
      (some (rsn attempt)) (by omega)
      (fun i hi1 hi2 => hrej i (by omega) (by omega))]
    have hmap : (List.range j).map (fun i =>
        (⟨attempt + 1 + i, rsn (attempt + 1 + i), some (resp (attempt + 1 + i))⟩ : HistEntry))
        = (List.range j).map ((fun i =>
        (⟨attempt + i, rsn (attempt + i), some (resp (attempt + i))⟩ : HistEntry)) ∘ Nat.succ) := by
      refine List.map_congr_left ?_
      intro i _
      have hi : attempt + 1 + i = attempt + (i + 1) := by omega
      simp [Function.comp, hi]
    have hlist : (history ++ [(⟨attempt, rsn attempt, some (resp attempt)⟩ : HistEntry)])
        ++ (List.range j).map (fun i =>
            (⟨attempt + 1 + i, rsn (attempt + 1 + i), some (resp (attempt + 1 + i))⟩ : HistEntry))
        = history ++ (List.range (j + 1)).map (fun i =>
            (⟨attempt + i, rsn (attempt + i), some (resp (attempt + i))⟩ : HistEntry)) := by
      rw [List.append_assoc, List.range_succ_eq_map]
      congr 1
      rw [List.singleton_append, List.map_cons, List.map_map, hmap]
      congr 1
    rw [hlist]

/-- C3: on every retry attempt `k > 1` (all prior attempts having been
rejected), the outgoing request of attempt `k` carries a user message whose
content lists every one of the `k − 1` prior attempts — index, generated
description and rejection reason — together with the instruction to produce
something fundamentally different, not only the most recent rejection. -/
theorem generator_retry_full_history (llm : ℕ → Except String Generated)
    (validators : List Validator) (sys usr : String) (maxRetries k : ℕ)
    (resp : ℕ → Generated) (rsn : ℕ → String)
    (hk1 : 1 < k) (hk2 : k ≤ maxRetries)
    (hrej : ∀ i, 1 ≤ i → i < k →
      llm i = .ok (resp i) ∧ chainFailedReason validators (resp i) = some (rsn i)) :
    ∃ hist : List HistEntry,
      (generateWithRetry llm validators sys usr maxRetries).1.get? (k - 1)
        = some (attemptMessages sys usr hist) ∧
      (∀ i, 1 ≤ i → i < k → (⟨i, rsn i, some (resp i)⟩ : HistEntry) ∈ hist) ∧
      (⟨"user", rejectionBlock hist⟩ : Message) ∈ attemptMessages sys usr hist ∧
      (∀ f ∈ hist, strContains (rejectionBlock hist) (rejectionLine f)) ∧
      strContains (rejectionBlock hist) "fundamentally different" := by
  refine ⟨(List.range (k - 1)).map
    (fun i => ⟨1 + i, rsn (1 + i), some (resp (1 + i))⟩), ?_, ?_, ?_, ?_, ?_⟩
  · have h := retryGo_trace llm validators sys usr maxRetries resp rsn (k - 1) maxRetries 1
      [] none (by omega) (fun i hi1 hi2 => hrej i hi1 (by omega))
    rw [generateWithRetry, h, List.nil_append]
  · intro i hi1 hi2
    refine List.mem_map.mpr ⟨i - 1, List.mem_range.mpr (by omega), ?_⟩
    have h : 1 + (i - 1) = i := by omega
    simp [h]
  · have hlen : ((List.range (k - 1)).map
        (fun i => (⟨1 + i, rsn (1 + i), some (resp (1 + i))⟩ : HistEntry))).length > 0 := by
      simp
      omega
    simp only [attemptMessages, if_pos hlen]
    simp
  · intro f hf
    exact strContains_trans (joinNl_contains (List.mem_map_of_mem rejectionLine hf))
      (strContains_right _ _)
  · exact strContains_trans rejectionHeader_phrase (strContains_left _ _)

/-- Witness for C3: three-attempt run whose first two responses are rejected
with reason `bad`; the theorem applies at attempt `k = 3`. -/
theorem generator_retry_full_history_witness :
    (1 < 3 ∧ 3 ≤ 3) ∧
    ∃ hist : List HistEntry,
      (generateWithRetry (fun _ => .ok ⟨"T", "D"⟩)
          [fun _ => ⟨false, some "bad", []⟩] "sys" "usr" 3).1.get? (3 - 1)
        = some (attemptMessages "sys" "usr" hist) ∧
      (∀ i, 1 ≤ i → i < 3 →
        (⟨i, (fun _ : ℕ => "bad") i, some ((fun _ : ℕ => (⟨"T", "D"⟩ : Generated)) i)⟩
          : HistEntry) ∈ hist) ∧
      (⟨"user", rejectionBlock hist⟩ : Message) ∈ attemptMessages "sys" "usr" hist ∧
      (∀ f ∈ hist, strContains (rejectionBlock hist) (rejectionLine f)) ∧
      strContains (rejectionBlock hist) "fundamentally different" :=
  ⟨⟨by omega, by omega⟩,
   generator_retry_full_history (fun _ => .ok ⟨"T", "D"⟩)
     [fun _ => ⟨false, some "bad", []⟩] "sys" "usr" 3 3
     (fun _ => ⟨"T", "D"⟩) (fun _ => "bad") (by omega) (by omega)
     (fun i _ _ => ⟨rfl, rfl⟩)⟩
